import Mathlib

/-!
Verification development for the k_3_hoot_program_arcium repository.

The repository is a confidentiality-preserving quiz ledger built from
TypeScript client scripts around an on-chain program.  This file gives a
shallow embedding of the pieces of the sources that the specification's
claims are about:

* the ContentCodec (64-byte XOR block codec keyed by the low byte of a
  nonce) of `encryptQuestionDataOnchain` (src/unnamed/part_002, lines
  100-124) and `decryptQuestionFromEncryptedData` (src/unnamed/part_001,
  lines 204-235);
* the decoded-payload parser `parseQuestionFromDecryptedString`
  (src/unnamed/part_001, lines 238-279), including a model of
  `JSON.parse`;
* the answer-verification flows `verifyAnswerOnchain` /
  `fallbackVerification` of src/unnamed/part_001 and of
  src/examples/quiz-decryption.ts;
* the reward-claim and add-question-block operations of the on-chain
  program (its Rust source is not part of the repository snapshot; they
  are modelled from the specification, as marked);
* the leaderboard projection `getTopicLeaderboard` (src/unnamed/part_004,
  lines 78-96);
* the error handling of `recordQuizCompletion` and `createTopics`
  (src/examples/complete-demo.ts).

Bytes are modelled as natural numbers (the sources use `Buffer` bytes,
always below 256; the XOR round-trip facts hold for all naturals), JS
numbers used for counters as naturals, and the float `winRate` as an
exact rational.
-/

/-! ## ContentCodec: 64-byte XOR block codec -/

/-- Zero-pad (or truncate) a plaintext byte sequence to exactly 64 bytes,
as `Buffer.alloc(64, 0)` followed by `textBytes.copy(paddedData, 0, 0,
min(textBytes.length, 64))` does in `encryptQuestionDataOnchain`
(src/unnamed/part_002, lines 110-112). -/
def padTo64 (x : List Nat) : List Nat :=
  x.take 64 ++ List.replicate (64 - x.length) 0

/-- Keystream byte derived from the nonce: the sources compute
`nonceValue & 0xFF` on a non-negative JS number, which equals the value
modulo 256. -/
def keystreamByte (nonce : Nat) : Nat := nonce % 256

/-- Byte-level core of `encryptQuestionDataOnchain` (src/unnamed/part_002,
lines 100-124): pad the plaintext to 64 bytes and XOR every byte with the
low byte of the nonce.  `encryptCorrectAnswer` (lines 127-143) and
`addQuestion` in src/examples/complete-demo.ts perform the same
transformation. -/
def encode (x : List Nat) (nonce : Nat) : List Nat :=
  (padTo64 x).map (fun b => b ^^^ keystreamByte nonce)

/-- Byte-level core of `decryptQuestionFromEncryptedData`
(src/unnamed/part_001, lines 210-221): XOR every byte of the block with
the low byte of the nonce, then drop every zero byte — the source does
`decryptedX.toString('utf8').replace(/\0/g, '')`, a global replacement
that removes all NUL characters, not only trailing padding. -/
def decode (block : List Nat) (nonce : Nat) : List Nat :=
  ((block.map (fun b => b ^^^ keystreamByte nonce)).filter (fun b => b != 0))

/-! ## Model of `JSON.parse` and the decoded-payload parser -/

/-- JSON value tree produced by `JSON.parse`.  Numbers keep their raw
lexeme: no claim inspects a numeric value, only whether parsing
succeeds. -/
inductive Json where
  | null : Json
  | bool (b : Bool) : Json
  | num (raw : String) : Json
  | str (s : String) : Json
  | arr (elems : List Json) : Json
  | obj (fields : List (String × Json)) : Json

/-- Double-quote character. -/
def quoteChar : Char := Char.ofNat 34

/-- Backslash character. -/
def backslashChar : Char := Char.ofNat 92

/-- Opening curly-brace character. -/
def lbraceChar : Char := Char.ofNat 123

/-- Closing curly-brace character. -/
def rbraceChar : Char := Char.ofNat 125

/-- JSON insignificant whitespace. -/
def jsonWs (c : Char) : Bool :=
  c = ' ' || c = '\t' || c = '\n' || c = '\r'

/-- Drop leading JSON whitespace. -/
def skipWs : List Char → List Char
  | [] => []
  | c :: cs => if jsonWs c then skipWs cs else c :: cs

/-- Numeric value of a hexadecimal digit. -/
def hexVal (c : Char) : Nat :=
  if c.isDigit then c.toNat - 48
  else if 'a' ≤ c && c ≤ 'f' then c.toNat - 87
  else c.toNat - 55

/-- Test for a hexadecimal digit. -/
def isHexDigit (c : Char) : Bool :=
  c.isDigit || ('a' ≤ c && c ≤ 'f') || ('A' ≤ c && c ≤ 'F')

/-- Parse the body of a JSON string (the opening quote already consumed),
returning the content characters and the remaining input after the
closing quote. -/
def parseStringBody : List Char → Option (List Char × List Char)
  | [] => none
  | c :: cs =>
    if c = quoteChar then some ([], cs)
    else if c = backslashChar then
      match cs with
      | [] => none
      | e :: cs2 =>
        if e = quoteChar then
          (parseStringBody cs2).map (fun p => (quoteChar :: p.1, p.2))
        else if e = backslashChar then
          (parseStringBody cs2).map (fun p => (backslashChar :: p.1, p.2))
        else if e = '/' then
          (parseStringBody cs2).map (fun p => ('/' :: p.1, p.2))
        else if e = 'b' then
          (parseStringBody cs2).map (fun p => (Char.ofNat 8 :: p.1, p.2))
        else if e = 'f' then
          (parseStringBody cs2).map (fun p => (Char.ofNat 12 :: p.1, p.2))
        else if e = 'n' then
          (parseStringBody cs2).map (fun p => ('\n' :: p.1, p.2))
        else if e = 'r' then
          (parseStringBody cs2).map (fun p => (Char.ofNat 13 :: p.1, p.2))
        else if e = 't' then
          (parseStringBody cs2).map (fun p => ('\t' :: p.1, p.2))
        else if e = 'u' then
          match cs2 with
          | h1 :: h2 :: h3 :: h4 :: cs3 =>
            if isHexDigit h1 && isHexDigit h2 && isHexDigit h3 && isHexDigit h4 then
              (parseStringBody cs3).map (fun p =>
                (Char.ofNat (hexVal h1 * 4096 + hexVal h2 * 256 + hexVal h3 * 16 + hexVal h4)
                  :: p.1, p.2))
            else none
          | _ => none
        else none
    else if c.toNat < 32 then none
    else (parseStringBody cs).map (fun p => (c :: p.1, p.2))

/-- Split off a maximal run of decimal digits. -/
def takeDigits : List Char → List Char × List Char
  | [] => ([], [])
  | c :: cs =>
    if c.isDigit then
      let p := takeDigits cs
      (c :: p.1, p.2)
    else ([], c :: cs)

/-- Parse a JSON number lexeme (`-? (0 | [1-9][0-9]*) frac? exp?`),
returning its characters and the remaining input. -/
def parseNumberBody (cs : List Char) : Option (List Char × List Char) :=
  let signAndRest : List Char × List Char :=
    match cs with
    | c :: r => if c = '-' then ([c], r) else ([], cs)
    | [] => ([], [])
  let sign := signAndRest.1
  match signAndRest.2 with
  | [] => none
  | c :: r =>
    let intAndRest : Option (List Char × List Char) :=
      if c = '0' then some ([c], r)
      else if c.isDigit then
        let p := takeDigits r
        some (c :: p.1, p.2)
      else none
    match intAndRest with
    | none => none
    | some (ip, r2) =>
      let fracAndRest : Option (List Char × List Char) :=
        match r2 with
        | d :: r3 =>
          if d = '.' then
            let p := takeDigits r3
            if p.1 = [] then none else some (d :: p.1, p.2)
          else some ([], r2)
        | [] => some ([], [])
      match fracAndRest with
      | none => none
      | some (fp, r4) =>
        let expAndRest : Option (List Char × List Char) :=
          match r4 with
          | e :: r5 =>
            if e = 'e' || e = 'E' then
              let signedRest : List Char × List Char :=
                match r5 with
                | s :: r6 => if s = '+' || s = '-' then ([s], r6) else ([], r5)
                | [] => ([], [])
              let p := takeDigits signedRest.2
              if p.1 = [] then none else some (e :: signedRest.1 ++ p.1, p.2)
            else some ([], r4)
          | [] => some ([], [])
        match expAndRest with
        | none => none
        | some (ep, r7) => some (sign ++ ip ++ fp ++ ep, r7)

mutual

/-- Fuel-indexed parser for a single JSON value, modelling `JSON.parse`
grammar-wise; returns the value and the unconsumed remainder. -/
def parseValue : Nat → List Char → Option (Json × List Char)
  | 0, _ => none
  | fuel + 1, cs =>
    match skipWs cs with
    | [] => none
    | c :: rest =>
      if c = quoteChar then
        (parseStringBody rest).map (fun p => (Json.str (String.mk p.1), p.2))
      else if c = lbraceChar then
        match skipWs rest with
        | [] => none
        | d :: r2 =>
          if d = rbraceChar then some (Json.obj [], r2)
          else (parseMembers fuel (d :: r2)).map (fun p => (Json.obj p.1, p.2))
      else if c = '[' then
        match skipWs rest with
        | [] => none
        | d :: r2 =>
          if d = ']' then some (Json.arr [], r2)
          else (parseElements fuel (d :: r2)).map (fun p => (Json.arr p.1, p.2))
      else if c = 't' then
        match rest with
        | 'r' :: 'u' :: 'e' :: r2 => some (Json.bool true, r2)
        | _ => none
      else if c = 'f' then
        match rest with
        | 'a' :: 'l' :: 's' :: 'e' :: r2 => some (Json.bool false, r2)
        | _ => none
      else if c = 'n' then
        match rest with
        | 'u' :: 'l' :: 'l' :: r2 => some (Json.null, r2)
        | _ => none
      else if c = '-' || c.isDigit then
        (parseNumberBody (c :: rest)).map (fun p => (Json.num (String.mk p.1), p.2))
      else none

/-- Fuel-indexed parser for one or more object members followed by the
closing brace. -/
def parseMembers : Nat → List Char → Option (List (String × Json) × List Char)
  | 0, _ => none
  | fuel + 1, cs =>
    match skipWs cs with
    | [] => none
    | k :: r2 =>
      if k = quoteChar then
        match parseStringBody r2 with
        | none => none
        | some (keyChars, r3) =>
          match skipWs r3 with
          | [] => none
          | colon :: r4 =>
            if colon = ':' then
              match parseValue fuel r4 with
              | none => none
              | some (v, r5) =>
                match skipWs r5 with
                | [] => none
                | sep :: r6 =>
                  if sep = ',' then
                    (parseMembers fuel r6).map (fun p =>
                      ((String.mk keyChars, v) :: p.1, p.2))
                  else if sep = rbraceChar then
                    some ([(String.mk keyChars, v)], r6)
                  else none
            else none
      else none

/-- Fuel-indexed parser for one or more array elements followed by the
closing bracket. -/
def parseElements : Nat → List Char → Option (List Json × List Char)
  | 0, _ => none
  | fuel + 1, cs =>
    match parseValue fuel cs with
    | none => none
    | some (v, r) =>
      match skipWs r with
      | [] => none
      | sep :: r2 =>
        if sep = ',' then
          (parseElements fuel r2).map (fun p => (v :: p.1, p.2))
        else if sep = ']' then some ([v], r2)
        else none

end

/-- Model of `JSON.parse`: parse one value, allowing surrounding
whitespace and requiring the whole input to be consumed. -/
def jsonParse (s : String) : Option Json :=
  match parseValue (s.length + 1) s.data with
  | some (j, rest) => if skipWs rest = [] then some j else none
  | none => none

/-- Property lookup on a parsed JSON object: `undefined` is `none`; with
duplicate keys the last occurrence wins, as in `JSON.parse`. -/
def objLookup (fields : List (String × Json)) (key : String) : Option Json :=
  fields.foldl (fun acc f => if f.1 = key then some f.2 else acc) none

/-- Result shape of `parseQuestionFromDecryptedString`: the JS object
`{question, choices, correctAnswer}` with possibly-`undefined` fields. -/
structure ParsedQuestion where
  question : Option Json
  choices : Option Json
  correctAnswer : Option Json

/-- Field extraction performed by the JSON branch of
`parseQuestionFromDecryptedString` (src/unnamed/part_001, lines 242-249):
property access on a non-object yields `undefined`. -/
def jsonExtract (j : Json) : ParsedQuestion :=
  match j with
  | Json.obj fields =>
    ⟨objLookup fields "question", objLookup fields "choices",
      objLookup fields "correctAnswer"⟩
  | _ => ⟨none, none, none⟩

/-- Split a character list at every pipe character, as JS
`String.prototype.split('|')` does. -/
def splitAtPipe : List Char → List (List Char)
  | [] => [[]]
  | c :: rest =>
    let r := splitAtPipe rest
    if c = '|' then [] :: r
    else
      match r with
      | h :: t => (c :: h) :: t
      | [] => [[c]]

/-- JS `s.split('|')` on a string. -/
def jsSplitPipe (s : String) : List String :=
  (splitAtPipe s.data).map String.mk

/-- Pipe-separated branch of `parseQuestionFromDecryptedString`
(src/unnamed/part_001, lines 254-267): requires at least 5 segments,
takes the first as the question and the next four as choices, and leaves
`correctAnswer` as the empty string. -/
def pipeParse (s : String) : Option ParsedQuestion :=
  let parts := jsSplitPipe s
  if 5 ≤ parts.length then
    some ⟨some (Json.str parts.headI),
      some (Json.arr (((parts.drop 1).take 4).map Json.str)),
      some (Json.str "")⟩
  else none

/-- Embedding of `parseQuestionFromDecryptedString` (src/unnamed/part_001,
lines 238-279): try `JSON.parse` first (a parsed `null` throws on field
access inside the same `try`, so it also falls through), then the
pipe-separated format; `none` models the final `throw`. -/
def parseQuestionFromDecryptedString (s : String) : Option ParsedQuestion :=
  match jsonParse s with
  | some Json.null => pipeParse s
  | some j => some (jsonExtract j)
  | none => pipeParse s

/-! ## Answer-verification flows -/

/-- Outcomes of the submission attempt inside `verifyAnswerOnchain` of
src/unnamed/part_001 (lines 344-432): the two early validity checks, a
successful `rpc()` call, or a thrown error caught by the surrounding
`catch`. -/
inductive SubmitOutcome where
  | invalidBlockData : SubmitOutcome
  | invalidKeyTypes : SubmitOutcome
  | txOk : SubmitOutcome
  | txError : SubmitOutcome

/-- Embedding of `fallbackVerification` of src/unnamed/part_001 (lines
331-341): the correct answer is encrypted, so the function always
returns `false`. -/
def fallbackVerificationEncrypted (_userAnswer : String) : Bool := false

/-- Embedding of `verifyAnswerOnchain` of src/unnamed/part_001 (lines
344-432).  The `engineMatched` argument is the boolean the confidential
compute engine would resolve for this request; the source never reads
it: on a successful `rpc()` it returns `true` immediately, and on any
thrown error it returns `fallbackVerification`, which is constant
`false`. -/
def verifyAnswerOnchainTx (outcome : SubmitOutcome) (engineMatched : Bool)
    (userAnswer : String) : Bool :=
  match outcome with
  | SubmitOutcome.invalidBlockData => false
  | SubmitOutcome.invalidKeyTypes => false
  | SubmitOutcome.txOk => true
  | SubmitOutcome.txError => fallbackVerificationEncrypted userAnswer

/-- Engine-interaction outcomes of `verifyAnswerOnchain` of
src/examples/quiz-decryption.ts (lines 403-474): no MXE account found,
the `rpc()` call throwing, `awaitComputationFinalization` throwing, or
the computation finalizing. -/
inductive EngineOutcome where
  | noMxeAccounts : EngineOutcome
  | rpcError : EngineOutcome
  | finalizeError : EngineOutcome
  | finalized : EngineOutcome

/-- Embedding of `fallbackVerification` of
src/examples/quiz-decryption.ts (lines 390-400): a local plaintext
comparison of the user's answer with the decrypted correct answer. -/
def fallbackVerificationPlain (userAnswer correctAnswer : String) : Bool :=
  userAnswer == correctAnswer

/-- Embedding of `verifyAnswerOnchain` of
src/examples/quiz-decryption.ts (lines 403-474) together with
`waitForComputationFinalization` (lines 477-507) and
`checkComputationResult` (lines 510-528): every engine-failure path —
and even the finalized path — ends in `fallbackVerification`, with the
caller's plaintext `userAnswer`/`correctAnswer` on the no-MXE and
rpc-error paths and with sentinel strings on the inner paths. -/
def verifyAnswerOnchainEngine (outcome : EngineOutcome)
    (userAnswer correctAnswer : String) : Bool :=
  match outcome with
  | EngineOutcome.noMxeAccounts => fallbackVerificationPlain userAnswer correctAnswer
  | EngineOutcome.rpcError => fallbackVerificationPlain userAnswer correctAnswer
  | EngineOutcome.finalizeError => fallbackVerificationPlain "computation_error" "unknown"
  | EngineOutcome.finalized => fallbackVerificationPlain "computation_completed" "unknown"

/-! ## RewardVault claim -/

/-- Failure causes of the reward claim (spec §4.5). -/
inductive ClaimError where
  | NoWinnerSet : ClaimError
  | Unauthorized : ClaimError
  | AlreadyClaimed : ClaimError
deriving DecidableEq

/-- Claim-relevant state of a QuizSet together with its vault balance.
Identities are modelled as naturals. -/
structure QuizSetClaim where
  winner : Option Nat
  isRewardClaimed : Bool
  vaultBalance : Nat
deriving DecidableEq

/-- Modelled from the spec: the on-chain `claim_reward` instruction is
not part of the repository snapshot (only TS clients reference the
program); §4.5 specifies it.  Fails `NoWinnerSet` if the winner is
unset, `Unauthorized` if the claimer is not the winner, `AlreadyClaimed`
if the reward was claimed; on success transfers the full vault balance
to the claimer (returned as the payout), marks the reward claimed and
zeroes the vault. -/
def claimReward (qs : QuizSetClaim) (claimer : Nat) :
    Except ClaimError (QuizSetClaim × Nat) :=
  match qs.winner with
  | none => Except.error ClaimError.NoWinnerSet
  | some w =>
    if claimer ≠ w then Except.error ClaimError.Unauthorized
    else if qs.isRewardClaimed then Except.error ClaimError.AlreadyClaimed
    else Except.ok ({ qs with isRewardClaimed := true, vaultBalance := 0 },
      qs.vaultBalance)

/-! ## Question-block insertion -/

/-- Failure causes of `addQuestionBlock` (spec §4.3). -/
inductive AddError where
  | Unauthorized : AddError
  | DuplicateIndex : AddError
  | IndexOutOfRange : AddError
deriving DecidableEq

/-- Insertion-relevant state of a QuizSet: its authority, fixed question
count, running counter, initialisation flag, and the set of question
indices already occupied by a QuestionBlock. -/
structure QuizSetBlocks where
  authority : Nat
  questionCount : Nat
  questionsAdded : Nat
  isInitialized : Bool
  blocks : List Nat
deriving DecidableEq

/-- Modelled from the spec: the on-chain `add_encrypted_question_block`
instruction is not part of the repository snapshot (only TS clients call
it); §4.3 specifies it.  Fails `Unauthorized` when the caller is not the
authority, `DuplicateIndex` when a block exists at the index,
`IndexOutOfRange` when the index is outside `[1, questionCount]`; on
success increments `questionsAdded` and flips `isInitialized` to true
exactly when the new counter equals `questionCount`. -/
def addQuestionBlock (qs : QuizSetBlocks) (caller idx : Nat) :
    Except AddError QuizSetBlocks :=
  if caller ≠ qs.authority then Except.error AddError.Unauthorized
  else if idx ∈ qs.blocks then Except.error AddError.DuplicateIndex
  else if idx < 1 ∨ qs.questionCount < idx then Except.error AddError.IndexOutOfRange
  else
    Except.ok { qs with
      questionsAdded := qs.questionsAdded + 1,
      blocks := idx :: qs.blocks,
      isInitialized :=
        if qs.questionsAdded + 1 = qs.questionCount then true else qs.isInitialized }

/-- A QuizSet as created, before any question block is added. -/
def freshQuizSet (authority questionCount : Nat) : QuizSetBlocks :=
  ⟨authority, questionCount, 0, false, []⟩

/-- Structural invariant of a QuizSet reachable by question insertions:
the counter counts the occupied indices, indices are distinct and in
range, and the initialisation flag holds exactly when all
`questionCount ≥ 1` blocks are present. -/
def QuizBlocksInv (qs : QuizSetBlocks) : Prop :=
  qs.questionsAdded = qs.blocks.length ∧
  qs.blocks.Nodup ∧
  (∀ i ∈ qs.blocks, 1 ≤ i ∧ i ≤ qs.questionCount) ∧
  (qs.isInitialized = true ↔
    (qs.questionsAdded = qs.questionCount ∧ 0 < qs.questionCount))

/-! ## Leaderboard projection -/

/-- Stored UserScore account fields used by the leaderboard
(src/unnamed/part_004): identities as naturals, counters as naturals. -/
structure UserScoreAccount where
  user : Nat
  score : Nat
  totalCompleted : Nat
  totalRewards : Nat
deriving DecidableEq

/-- Leaderboard entry produced by `getTopicLeaderboard`
(src/unnamed/part_004, lines 78-87); `winRate` is the JS float
`(score / totalCompleted) * 100`, modelled exactly as a rational. -/
structure LeaderboardEntry where
  user : Nat
  score : Nat
  totalCompleted : Nat
  totalRewards : Nat
  winRate : ℚ
deriving DecidableEq

/-- Mapping of a UserScore account to a leaderboard entry
(src/unnamed/part_004, lines 79-87). -/
def toEntry (a : UserScoreAccount) : LeaderboardEntry :=
  { user := a.user, score := a.score, totalCompleted := a.totalCompleted,
    totalRewards := a.totalRewards,
    winRate :=
      if 0 < a.totalCompleted then ((a.score : ℚ) / (a.totalCompleted : ℚ)) * 100
      else 0 }

/-- Order induced by the sort comparator of `getTopicLeaderboard`
(src/unnamed/part_004, lines 88-95): `entryOrd a b` holds when the
comparator would put `a` before `b` or leave them tied — score
descending, then winRate descending, then totalCompleted descending. -/
def entryOrd (a b : LeaderboardEntry) : Prop :=
  b.score < a.score ∨
    (a.score = b.score ∧
      (b.winRate < a.winRate ∨
        (a.winRate = b.winRate ∧ b.totalCompleted ≤ a.totalCompleted)))

instance : DecidableRel entryOrd := fun a b => by
  unfold entryOrd
  infer_instance

instance : IsTotal LeaderboardEntry entryOrd where
  total a b := by
    unfold entryOrd
    rcases lt_trichotomy a.score b.score with h | h | h
    · exact Or.inr (Or.inl h)
    · rcases lt_trichotomy a.winRate b.winRate with h2 | h2 | h2
      · exact Or.inr (Or.inr ⟨h.symm, Or.inl h2⟩)
      · rcases Nat.le_total b.totalCompleted a.totalCompleted with h3 | h3
        · exact Or.inl (Or.inr ⟨h, Or.inr ⟨h2, h3⟩⟩)
        · exact Or.inr (Or.inr ⟨h.symm, Or.inr ⟨h2.symm, h3⟩⟩)
      · exact Or.inl (Or.inr ⟨h, Or.inl h2⟩)
    · exact Or.inl (Or.inl h)

instance : IsTrans LeaderboardEntry entryOrd where
  trans a b c hab hbc := by
    unfold entryOrd at hab hbc ⊢
    rcases hab with h1 | ⟨e1, h1⟩
    · rcases hbc with h2 | ⟨e2, h2⟩
      · exact Or.inl (h2.trans h1)
      · exact Or.inl (e2 ▸ h1)
    · rcases hbc with h2 | ⟨e2, h2⟩
      · exact Or.inl (e1 ▸ h2)
      · refine Or.inr ⟨e1.trans e2, ?_⟩
        rcases h1 with h1 | ⟨w1, h1⟩
        · rcases h2 with h2 | ⟨w2, h2⟩
          · exact Or.inl (h2.trans h1)
          · exact Or.inl (w2 ▸ h1)
        · rcases h2 with h2 | ⟨w2, h2⟩
          · exact Or.inl (w1 ▸ h2)
          · exact Or.inr ⟨w1.trans w2, h2.trans h1⟩

/-- Embedding of `getTopicLeaderboard` (src/unnamed/part_004, lines
78-96): map the topic's UserScore accounts to entries, sort with the
comparator, keep the first `limit` entries.  JS `Array.prototype.sort`
with this comparator produces a list sorted with respect to `entryOrd`;
it is modelled by insertion sort with respect to `entryOrd`. -/
def getTopicLeaderboard (scores : List UserScoreAccount) (limit : Nat) :
    List LeaderboardEntry :=
  ((scores.map toEntry).insertionSort entryOrd).take limit

/-! ## Error handling of the completion/topic demos -/

/-- Test whether `pat` occurs at the start of `hay`. -/
def segStartsHere : List Char → List Char → Bool
  | [], _ => true
  | _ :: _, [] => false
  | p :: ps, c :: cs => p = c && segStartsHere ps cs

/-- Test whether `pat` occurs anywhere in `hay`. -/
def containsSeg (hay pat : List Char) : Bool :=
  match hay with
  | [] => segStartsHere pat []
  | _ :: rest => segStartsHere pat hay || containsSeg rest pat

/-- JS `String.prototype.includes`. -/
def strIncludes (s pat : String) : Bool := containsSeg s.data pat.data

/-- Embedding of the error handling of `recordQuizCompletion`
(src/examples/complete-demo.ts, lines 342-389): the transaction's
outcome is the argument; an error whose message contains
"already in use" is swallowed (the function returns normally), any
other error is rethrown. -/
def recordQuizCompletion (txResult : Except String Unit) : Except String Unit :=
  match txResult with
  | Except.ok _ => Except.ok ()
  | Except.error msg =>
    if strIncludes msg "already in use" then Except.ok () else Except.error msg

/-- Embedding of one loop iteration of `createTopics`
(src/examples/complete-demo.ts, lines 46-77): on success the topic is
recorded; on an "already in use" error it is recorded as if created; on
any other error it is only logged and skipped — nothing is rethrown. -/
def createTopicStep (createdTopics : List String) (topicName : String)
    (txResult : Except String Unit) : List String :=
  match txResult with
  | Except.ok _ => createdTopics ++ [topicName]
  | Except.error msg =>
    if strIncludes msg "already in use" then createdTopics ++ [topicName]
    else createdTopics

/-- Embedding of the whole `createTopics` loop: fold the per-topic step
over the topics and their transaction outcomes.  Its type already
records that no error can reach the caller. -/
def createTopicsRun (items : List (String × Except String Unit)) : List String :=
  items.foldl (fun acc it => createTopicStep acc it.1 it.2) []

/-- Classification used to characterise `createTopicsRun`: a topic is
kept exactly when its transaction succeeded or failed with an
"already in use" conflict. -/
def keptTopic (r : Except String Unit) : Bool :=
  match r with
  | Except.ok _ => true
  | Except.error msg => strIncludes msg "already in use"

/-! ## Helper lemmas -/

/-- XOR with the same key twice is the identity. -/
theorem xor_cancel_twice (b k : Nat) : b ^^^ k ^^^ k = b := by
  rw [Nat.xor_assoc, Nat.xor_self, Nat.xor_zero]

/-- Decoding an encoding removes exactly the zero bytes of the
plaintext (the padding and any interior NUL bytes). -/
theorem decode_encode_filter (x : List Nat) (n : Nat) (hx : x.length ≤ 64) :
    decode (encode x n) n = x.filter (fun b => b != 0) := by
  unfold decode encode padTo64
  rw [List.map_map]
  have hid : ((fun b => b ^^^ keystreamByte n) ∘ fun b => b ^^^ keystreamByte n) =
      id := by
    funext b
    simp [Function.comp, xor_cancel_twice]
  rw [hid, List.map_id, List.filter_append, List.take_of_length_le hx]
  simp

/-- A list of distinct naturals all lying in `[1, c]` has length at most
`c`. -/
theorem nodup_range_length_le (l : List Nat) (c : Nat) (hnd : l.Nodup)
    (hr : ∀ i ∈ l, 1 ≤ i ∧ i ≤ c) : l.length ≤ c := by
  classical
  have hsub : l.toFinset ⊆ Finset.Icc 1 c := by
    intro i hi
    rw [List.mem_toFinset] at hi
    exact Finset.mem_Icc.mpr (hr i hi)
  have h2 := Finset.card_le_card hsub
  rw [List.toFinset_card_of_nodup hnd, Nat.card_Icc] at h2
  omega

/-- Folding the `createTopics` step accumulates exactly the topics whose
transaction succeeded or failed with an "already in use" conflict. -/
theorem createTopics_foldl (items : List (String × Except String Unit))
    (acc : List String) :
    items.foldl (fun a it => createTopicStep a it.1 it.2) acc =
      acc ++ (items.filter (fun it => keptTopic it.2)).map (fun it => it.1) := by
  induction items generalizing acc with
  | nil => simp
  | cons hd tl ih =>
    obtain ⟨nm, r⟩ := hd
    rw [List.foldl_cons, ih]
    cases r with
    | ok u => simp [createTopicStep, keptTopic]
    | error msg =>
      by_cases hc : strIncludes msg "already in use" = true
      · simp [createTopicStep, keptTopic, hc]
      · rw [Bool.not_eq_true] at hc
        simp [createTopicStep, keptTopic, hc]

/-! ## Claim theorems -/

/-- C3, counterexample: the claimed round-trip `decode (encode x n) n = x`
for every plaintext of length at most 64 fails at the concrete plaintext
`[65, 0, 66]` with nonce 5 — the decoder's global NUL removal deletes
the interior zero byte. -/
theorem decode_encode_roundtrip_cex :
    (([65, 0, 66] : List Nat).length ≤ 64) ∧
    decode (encode [65, 0, 66] 5) 5 ≠ [65, 0, 66] := by
  decide

/-- C3 (amended): for every plaintext of length at most 64 none of whose
bytes is zero, decoding the encoding under the same nonce yields the
plaintext exactly. -/
theorem decode_encode_roundtrip (x : List Nat) (n : Nat)
    (hx : x.length ≤ 64) (hz : ∀ b ∈ x, b ≠ 0) :
    decode (encode x n) n = x := by
  rw [decode_encode_filter x n hx]
  rw [List.filter_eq_self]
  intro b hb
  simpa using hz b hb

/-- C3, witness: the amended round-trip at the plaintext "2+2" (bytes
`[50, 43, 50]`) and nonce 42. -/
theorem decode_encode_roundtrip_witness :
    (([50, 43, 50] : List Nat).length ≤ 64) ∧
    (∀ b ∈ ([50, 43, 50] : List Nat), b ≠ 0) ∧
    decode (encode [50, 43, 50] 42) 42 = [50, 43, 50] :=
  ⟨by decide, by decide, decode_encode_roundtrip [50, 43, 50] 42 (by decide) (by decide)⟩

/-- C4, counterexample: the claimed nonce sensitivity fails for the
distinct nonces 0 and 256 on the non-empty plaintext `[65]` — the
keystream uses only the low byte of the nonce, and `0` and `256` agree
modulo 256. -/
theorem encode_nonce_sensitivity_cex :
    (0 : Nat) ≠ 256 ∧ ([65] : List Nat) ≠ [] ∧
    encode [65] 0 = encode [65] 256 := by
  decide

/-- C4 (amended): for every non-empty plaintext and every pair of nonces
with distinct low bytes (`n1 % 256 ≠ n2 % 256`), the encoded blocks
differ. -/
theorem encode_nonce_sensitivity (p : List Nat) (n1 n2 : Nat)
    (hp : p ≠ []) (h : n1 % 256 ≠ n2 % 256) :
    encode p n1 ≠ encode p n2 := by
  cases p with
  | nil => exact absurd rfl hp
  | cons a t =>
    intro heq
    apply h
    have hhead : a ^^^ keystreamByte n1 = a ^^^ keystreamByte n2 := by
      have := congrArg List.headI heq
      simpa [encode, padTo64] using this
    have h2 := congrArg (fun z => a ^^^ z) hhead
    simpa [← Nat.xor_assoc, Nat.xor_self, Nat.zero_xor, keystreamByte] using h2

/-- C4, witness: the amended nonce sensitivity at the plaintext `[65]`
and the nonces 0 and 1. -/
theorem encode_nonce_sensitivity_witness :
    (([65] : List Nat) ≠ []) ∧ (0 : Nat) % 256 ≠ 1 % 256 ∧
    encode [65] 0 ≠ encode [65] 1 :=
  ⟨by decide, by decide, encode_nonce_sensitivity [65] 0 1 (by decide) (by decide)⟩

/-- C10: decoding removes every NUL byte, not only trailing padding — no
decoded output contains a zero byte, and decoding an encoded plaintext
yields the plaintext with all of its zero bytes deleted (the surrounding
segments concatenated by the filter). -/
theorem decode_removes_all_nul (block x : List Nat) (n : Nat)
    (hx : x.length ≤ 64) :
    (0 : Nat) ∉ decode block n ∧
    decode (encode x n) n = x.filter (fun b => b != 0) := by
  constructor
  · intro h0
    have := (List.mem_filter.mp h0).2
    simp at this
  · exact decode_encode_filter x n hx

/-- C10, witness: at the block `[0, 1, 2]` with nonce 3 and the
plaintext `[65, 0, 66]` with nonce 7, whose interior NUL is deleted. -/
theorem decode_removes_all_nul_witness :
    (0 : Nat) ∉ decode [0, 1, 2] 7 ∧
    decode (encode [65, 0, 66] 7) 7 = [65, 66] :=
  ⟨(decode_removes_all_nul [0, 1, 2] [65, 0, 66] 7 (by decide)).1,
    ((decode_removes_all_nul [0, 1, 2] [65, 0, 66] 7 (by decide)).2).trans (by decide)⟩

/-- C5: the decoded-payload parser tries `JSON.parse` first and the
pipe-delimited format second (a valid-JSON input containing five pipe
segments is handled by the JSON branch), the pipe format needs at least
5 segments, and when neither format applies parsing fails with an error
(`none`) instead of any default content; the decoded string
"2+2?|3|4|5|6" is not JSON and parses via the pipe branch to question
"2+2?" and choices ["3", "4", "5", "6"]. -/
theorem parseQuestion_formats (s : String)
    (hjson : jsonParse s = none) (hpipe : (jsSplitPipe s).length < 5) :
    parseQuestionFromDecryptedString s = none ∧
    jsonParse "2+2?|3|4|5|6" = none ∧
    parseQuestionFromDecryptedString "2+2?|3|4|5|6" =
      some ⟨some (Json.str "2+2?"),
        some (Json.arr [Json.str "3", Json.str "4", Json.str "5", Json.str "6"]),
        some (Json.str "")⟩ ∧
    5 ≤ (jsSplitPipe "\"a|b|c|d|e\"").length ∧
    parseQuestionFromDecryptedString "\"a|b|c|d|e\"" =
      some (jsonExtract (Json.str "a|b|c|d|e")) := by
  refine ⟨?_, rfl, rfl, by decide, rfl⟩
  unfold parseQuestionFromDecryptedString
  rw [hjson]
  unfold pipeParse
  rw [if_neg]
  omega

/-- C5, witness: the input "x" is neither JSON nor pipe-formatted and is
rejected. -/
theorem parseQuestion_formats_witness :
    jsonParse "x" = none ∧ (jsSplitPipe "x").length < 5 ∧
    parseQuestionFromDecryptedString "x" = none :=
  ⟨rfl, by decide, (parseQuestion_formats "x" rfl (by decide)).1⟩

/-- C1: on engine failure, `verifyAnswerOnchain` of
src/examples/quiz-decryption.ts does not reach a terminal failed state
— both the missing-MXE path and the rpc-error path return the verdict
of `fallbackVerification`, a local plaintext comparison of the user's
answer with the decrypted correct answer, so an engine failure with a
matching plaintext pair yields the verdict `true`. -/
theorem engineFailure_local_comparison :
    (∀ u c, verifyAnswerOnchainEngine EngineOutcome.rpcError u c = (u == c)) ∧
    (∀ u c, verifyAnswerOnchainEngine EngineOutcome.noMxeAccounts u c = (u == c)) ∧
    verifyAnswerOnchainEngine EngineOutcome.rpcError "4" "4" = true :=
  ⟨fun _ _ => rfl, fun _ _ => rfl, rfl⟩

/-- C2: `verifyAnswerOnchain` of src/unnamed/part_001 reports the answer
correct whenever the submission transaction succeeds, independently of
the boolean the confidential-compute engine would resolve — in
particular it returns `true` when the engine's result is `matched =
false` — and returns `false` on every other path. -/
theorem txSuccess_not_engine_verdict :
    (∀ m u, verifyAnswerOnchainTx SubmitOutcome.txOk m u = true) ∧
    verifyAnswerOnchainTx SubmitOutcome.txOk false "wrong answer" = true ∧
    (∀ m u, verifyAnswerOnchainTx SubmitOutcome.txError m u = false) :=
  ⟨fun _ _ => rfl, rfl, fun _ _ => rfl⟩

/-- C6: `claimReward` fails `NoWinnerSet` when the winner is unset,
`Unauthorized` when the claimer is not the winner, and `AlreadyClaimed`
when the reward was already claimed; on success it pays out the full
vault balance, marks the reward claimed and zeroes the vault, so a
second claim on the resulting state fails `AlreadyClaimed` and the vault
is debited exactly once. -/
theorem claimReward_spec (qs : QuizSetClaim) (claimer w : Nat) :
    (qs.winner = none →
      claimReward qs claimer = Except.error ClaimError.NoWinnerSet) ∧
    (qs.winner = some w → claimer ≠ w →
      claimReward qs claimer = Except.error ClaimError.Unauthorized) ∧
    (qs.winner = some claimer → qs.isRewardClaimed = true →
      claimReward qs claimer = Except.error ClaimError.AlreadyClaimed) ∧
    (qs.winner = some claimer → qs.isRewardClaimed = false →
      claimReward qs claimer =
        Except.ok ({ qs with isRewardClaimed := true, vaultBalance := 0 },
          qs.vaultBalance)) ∧
    (∀ qs2 payout, claimReward qs claimer = Except.ok (qs2, payout) →
      payout = qs.vaultBalance ∧ qs2.vaultBalance = 0 ∧
        qs2.isRewardClaimed = true ∧
        claimReward qs2 claimer = Except.error ClaimError.AlreadyClaimed) := by
  refine ⟨?_, ?_, ?_, ?_, ?_⟩
  · intro hw
    simp [claimReward, hw]
  · intro hw hne
    simp [claimReward, hw, hne]
  · intro hw hcl
    simp [claimReward, hw, hcl]
  · intro hw hcl
    simp [claimReward, hw, hcl]
  · intro qs2 payout hok
    cases hw : qs.winner with
    | none => simp [claimReward, hw] at hok
    | some w2 =>
      by_cases hne : claimer ≠ w2
      · simp [claimReward, hw, hne] at hok
      · by_cases hcl : qs.isRewardClaimed
        · simp [claimReward, hw, hne, hcl] at hok
        · simp [claimReward, hw, hne, hcl] at hok
          obtain ⟨hqs2, hpay⟩ := hok
          subst hqs2
          refine ⟨hpay.symm, rfl, rfl, ?_⟩
          simp [claimReward, hw, hne]

/-- C6, witness: a quiz set with winner 7 and a vault of 1000: user 7's
claim succeeds paying 1000 and zeroing the vault, and the second claim
on the resulting state fails `AlreadyClaimed`. -/
theorem claimReward_spec_witness :
    claimReward ⟨some 7, false, 1000⟩ 7 =
      Except.ok (⟨some 7, true, 0⟩, 1000) ∧
    claimReward ⟨some 7, true, 0⟩ 7 = Except.error ClaimError.AlreadyClaimed :=
  ⟨(claimReward_spec ⟨some 7, false, 1000⟩ 7 7).2.2.2.1 rfl rfl,
    (claimReward_spec ⟨some 7, true, 0⟩ 7 7).2.2.1 rfl rfl⟩

/-- Characterisation of a successful `addQuestionBlock`: the caller is
the authority, the index is fresh and in range, and the new state has
the incremented counter, the extended block set and the conditionally
flipped flag. -/
theorem addQuestionBlock_ok_elim (qs : QuizSetBlocks) (caller idx : Nat)
    (qs2 : QuizSetBlocks) (hok : addQuestionBlock qs caller idx = Except.ok qs2) :
    caller = qs.authority ∧ idx ∉ qs.blocks ∧ 1 ≤ idx ∧ idx ≤ qs.questionCount ∧
    qs2.questionsAdded = qs.questionsAdded + 1 ∧
    qs2.blocks = idx :: qs.blocks ∧
    qs2.questionCount = qs.questionCount ∧
    qs2.isInitialized =
      (if qs.questionsAdded + 1 = qs.questionCount then true
        else qs.isInitialized) := by
  unfold addQuestionBlock at hok
  by_cases h1 : caller ≠ qs.authority
  · rw [if_pos h1] at hok
    exact Except.noConfusion hok
  rw [if_neg h1] at hok
  by_cases h2 : idx ∈ qs.blocks
  · rw [if_pos h2] at hok
    exact Except.noConfusion hok
  rw [if_neg h2] at hok
  by_cases h3 : idx < 1 ∨ qs.questionCount < idx
  · rw [if_pos h3] at hok
    exact Except.noConfusion hok
  rw [if_neg h3] at hok
  injection hok with h
  subst h
  push_neg at h1 h3
  exact ⟨h1, h2, h3.1, h3.2, rfl, rfl, rfl, rfl⟩

/-- C7: a freshly created QuizSet satisfies the insertion invariant with
`isInitialized = false`; every successful `addQuestionBlock` preserves
the invariant; under the invariant, the initialisation flag holds after a
successful insertion exactly when the counter has reached
`questionCount`; and once `isInitialized` is true no further insertion
can succeed — so the flag is monotone and flips exactly once, on the
insertion of the last of `questionCount` distinct blocks. -/
theorem addQuestionBlock_initialization (qs : QuizSetBlocks)
    (caller idx authority c : Nat) (hinv : QuizBlocksInv qs) :
    QuizBlocksInv (freshQuizSet authority c) ∧
    (freshQuizSet authority c).isInitialized = false ∧
    (∀ qs2, addQuestionBlock qs caller idx = Except.ok qs2 →
      QuizBlocksInv qs2 ∧
        (qs2.isInitialized = true ↔ qs2.questionsAdded = qs.questionCount)) ∧
    (qs.isInitialized = true →
      ∀ qs2, addQuestionBlock qs caller idx ≠ Except.ok qs2) := by
  obtain ⟨hcount, hnd, hrange, hflag⟩ := hinv
  refine ⟨⟨rfl, List.nodup_nil, by simp [freshQuizSet], ?_⟩, rfl, ?_, ?_⟩
  · constructor
    · intro h
      exact absurd h (by simp [freshQuizSet])
    · intro h
      simp only [freshQuizSet] at h
      omega
  · intro qs2 hok
    obtain ⟨ha, hnotmem, hidx1, hidx2, hadded, hblocks, hqc, hflag2⟩ :=
      addQuestionBlock_ok_elim qs caller idx qs2 hok
    have hlen : qs.blocks.length ≤ qs.questionCount :=
      nodup_range_length_le qs.blocks qs.questionCount hnd hrange
    have hrange2 : ∀ i ∈ qs2.blocks, 1 ≤ i ∧ i ≤ qs2.questionCount := by
      intro i hi
      rw [hblocks] at hi
      rw [hqc]
      rcases List.mem_cons.mp hi with rfl | hi2
      · exact ⟨hidx1, hidx2⟩
      · exact hrange i hi2
    have hnd2 : qs2.blocks.Nodup := by
      rw [hblocks]
      exact List.nodup_cons.mpr ⟨hnotmem, hnd⟩
    have hflagiff : qs2.isInitialized = true ↔
        qs2.questionsAdded = qs.questionCount := by
      rw [hflag2, hadded]
      by_cases heq : qs.questionsAdded + 1 = qs.questionCount
      · simp [heq]
      · simp only [if_neg heq]
        constructor
        · intro hold
          have hall := hflag.mp hold
          have hlen2 : (idx :: qs.blocks).length ≤ qs.questionCount := by
            apply nodup_range_length_le (idx :: qs.blocks) qs.questionCount
              (List.nodup_cons.mpr ⟨hnotmem, hnd⟩)
            intro i hi
            rcases List.mem_cons.mp hi with rfl | hi2
            · exact ⟨hidx1, hidx2⟩
            · exact hrange i hi2
          simp only [List.length_cons] at hlen2
          omega
        · intro hnew
          exact absurd hnew heq
    refine ⟨⟨?_, hnd2, hrange2, ?_⟩, hflagiff⟩
    · rw [hadded, hblocks, hcount, List.length_cons]
    · rw [hflagiff, hqc]
      constructor
      · intro h
        exact ⟨h, by omega⟩
      · intro h
        exact h.1
  · intro hinit qs2 hok
    obtain ⟨ha, hnotmem, hidx1, hidx2, hadded, hblocks, hqc, hflag2⟩ :=
      addQuestionBlock_ok_elim qs caller idx qs2 hok
    have hw := hflag.mp hinit
    have hlen : (idx :: qs.blocks).length ≤ qs.questionCount := by
      apply nodup_range_length_le (idx :: qs.blocks) qs.questionCount
        (List.nodup_cons.mpr ⟨hnotmem, hnd⟩)
      intro i hi
      rcases List.mem_cons.mp hi with rfl | hi2
      · exact ⟨hidx1, hidx2⟩
      · exact hrange i hi2
    simp only [List.length_cons] at hlen
    omega

/-- C7, witness: starting from a fresh QuizSet with one question, the
single successful insertion yields a state satisfying the invariant
whose flag is set, and no insertion into that state can succeed. -/
theorem addQuestionBlock_initialization_witness :
    QuizBlocksInv (freshQuizSet 9 3) ∧
    (freshQuizSet 9 3).isInitialized = false ∧
    QuizBlocksInv ⟨1, 1, 1, true, [1]⟩ ∧
    ((⟨1, 1, 1, true, [1]⟩ : QuizSetBlocks).isInitialized = true ↔
      (1 : Nat) = 1) ∧
    (¬ addQuestionBlock ⟨1, 1, 1, true, [1]⟩ 1 2 =
      Except.ok ⟨1, 1, 2, true, [2, 1]⟩) := by
  have hfresh : QuizBlocksInv (freshQuizSet 1 1) := by
    refine ⟨rfl, List.nodup_nil, by simp [freshQuizSet], ?_⟩
    simp [freshQuizSet]
  have h1 := addQuestionBlock_initialization (freshQuizSet 1 1) 1 1 9 3 hfresh
  have hstep := h1.2.2.1 ⟨1, 1, 1, true, [1]⟩ rfl
  have hinv2 : QuizBlocksInv ⟨1, 1, 1, true, [1]⟩ := hstep.1
  have h2 := addQuestionBlock_initialization ⟨1, 1, 1, true, [1]⟩ 1 2 9 3 hinv2
  exact ⟨h1.1, h1.2.1, hinv2, hstep.2, h2.2.2.2 rfl ⟨1, 1, 2, true, [2, 1]⟩⟩

/-- C8, counterexample: the claim states `winRate` equals `score`
divided by `totalCompleted`, but `getTopicLeaderboard` computes a
percentage — for a record with score 1 and totalCompleted 2 the entry's
`winRate` is 50, not 1/2. -/
theorem winRate_percentage_cex :
    (toEntry ⟨1, 1, 2, 0⟩).winRate = 50 ∧
    (toEntry ⟨1, 1, 2, 0⟩).winRate ≠ (1 : ℚ) / 2 := by
  constructor <;> norm_num [toEntry]

/-- C8 (amended): `getTopicLeaderboard` returns at most `limit` entries,
pairwise ordered by score descending, then winRate descending, then
totalCompleted descending; every returned entry comes from one of the
topic's UserScore records; and `winRate` is the percentage
`(score / totalCompleted) * 100`, defined as 0 when `totalCompleted` is
0. -/
theorem getTopicLeaderboard_spec (scores : List UserScoreAccount)
    (limit : Nat) (e : LeaderboardEntry)
    (he : e ∈ getTopicLeaderboard scores limit) (a : UserScoreAccount) :
    (getTopicLeaderboard scores limit).length ≤ limit ∧
    List.Pairwise entryOrd (getTopicLeaderboard scores limit) ∧
    (∃ b ∈ scores, e = toEntry b) ∧
    (toEntry a).winRate =
      (if a.totalCompleted = 0 then 0
        else ((a.score : ℚ) / (a.totalCompleted : ℚ)) * 100) := by
  refine ⟨List.length_take_le _ _, ?_, ?_, ?_⟩
  · exact List.Pairwise.sublist (List.take_sublist _ _)
      (List.sorted_insertionSort entryOrd (scores.map toEntry))
  · have h1 : e ∈ (scores.map toEntry).insertionSort entryOrd :=
      List.mem_of_mem_take he
    have h2 : e ∈ scores.map toEntry :=
      (List.perm_insertionSort entryOrd (scores.map toEntry)).mem_iff.mp h1
    obtain ⟨b, hb, hbe⟩ := List.mem_map.mp h2
    exact ⟨b, hb, hbe.symm⟩
  · rcases Nat.eq_zero_or_pos a.totalCompleted with h | h
    · simp [toEntry, h]
    · simp [toEntry, h, Nat.pos_iff_ne_zero.mp h]

/-- C8, witness: a single-record topic with limit 1: the entry for the
record is returned and the winRate clause evaluates at a record with no
completions. -/
theorem getTopicLeaderboard_spec_witness :
    (getTopicLeaderboard [⟨1, 3, 4, 0⟩] 1).length ≤ 1 ∧
    List.Pairwise entryOrd (getTopicLeaderboard [⟨1, 3, 4, 0⟩] 1) ∧
    (∃ b ∈ ([⟨1, 3, 4, 0⟩] : List UserScoreAccount),
      toEntry ⟨1, 3, 4, 0⟩ = toEntry b) ∧
    (toEntry ⟨2, 1, 0, 0⟩).winRate =
      (if (0 : Nat) = 0 then 0 else ((1 : ℚ) / (0 : ℚ)) * 100) := by
  have he : toEntry ⟨1, 3, 4, 0⟩ ∈ getTopicLeaderboard [⟨1, 3, 4, 0⟩] 1 := by
    rw [show getTopicLeaderboard [⟨1, 3, 4, 0⟩] 1 =
      [toEntry ⟨1, 3, 4, 0⟩] from rfl]
    exact List.mem_singleton.mpr rfl
  have h := getTopicLeaderboard_spec [⟨1, 3, 4, 0⟩] 1
    (toEntry ⟨1, 3, 4, 0⟩) he ⟨2, 1, 0, 0⟩
  exact ⟨h.1, h.2.1, h.2.2.1, h.2.2.2⟩

/-- C9, counterexample: a conflict is silently converted into success —
`recordQuizCompletion` turns an "already in use" transaction error into
a normal return, and `createTopics` records a topic whose creation
failed with "already in use" as created. -/
theorem conflict_swallowed_cex :
    recordQuizCompletion
      (Except.error "Allocate: account address already in use") =
      Except.ok () ∧
    createTopicStep [] "Mathematics" (Except.error "account already in use") =
      ["Mathematics"] := by
  constructor <;> rfl

/-- C9 (amended): errors other than "already in use" conflicts propagate
from `recordQuizCompletion` to its caller, but an "already in use"
conflict is silently converted into success; `createTopics` records a
topic as created on an "already in use" conflict, drops a topic on any
other error without propagating it, and its run over any sequence of
outcomes returns exactly the non-failing topics and never an error. -/
theorem demo_error_handling (msg acc1 : String) (acc : List String)
    (hconf : strIncludes msg "already in use" = false)
    (hconf2 : strIncludes acc1 "already in use" = true)
    (items : List (String × Except String Unit)) :
    recordQuizCompletion (Except.error msg) = Except.error msg ∧
    recordQuizCompletion (Except.ok ()) = Except.ok () ∧
    recordQuizCompletion (Except.error acc1) = Except.ok () ∧
    (∀ name, createTopicStep acc name (Except.error msg) = acc) ∧
    (∀ name, createTopicStep acc name (Except.error acc1) = acc ++ [name]) ∧
    createTopicsRun items =
      (items.filter (fun it => keptTopic it.2)).map (fun it => it.1) := by
  refine ⟨?_, rfl, ?_, ?_, ?_, ?_⟩
  · simp [recordQuizCompletion, hconf]
  · simp [recordQuizCompletion, hconf2]
  · intro name
    simp [createTopicStep, hconf]
  · intro name
    simp [createTopicStep, hconf2]
  · simpa [createTopicsRun] using createTopics_foldl items []

/-- C9, witness: a timeout error propagates from `recordQuizCompletion`,
an "already in use" conflict is swallowed, and a run of `createTopics`
over one success and one failing topic returns only the success, with no
error surfaced. -/
theorem demo_error_handling_witness :
    recordQuizCompletion (Except.error "timeout") =
      Except.error "timeout" ∧
    recordQuizCompletion (Except.error "already in use") = Except.ok () ∧
    createTopicsRun [("Science", Except.ok ()), ("History", Except.error "timeout")] =
      ["Science"] := by
  have h := demo_error_handling "timeout" "already in use" []
    (by decide) (by decide)
    [("Science", Except.ok ()), ("History", Except.error "timeout")]
  exact ⟨h.1, h.2.2.1, h.2.2.2.2.2.trans (by decide)⟩
